import Mathlib

/-!
Verification of the runevm class-file loader and execution frame.

The development shallowly embeds two parts of the repository:

* namespace `CF`: the byte-stream class-file parser of
  `crates/runevm_classfile/src/{stream.rs, constant_pool.rs, attributes.rs, lib.rs}`
  (`Stream`, `ConstantPool`, `read_attributes`, `ClassFile::parse`).
* namespace `RT`: the nom-based constant-pool lookups of
  `crates/runevm_classfile/src/parser.rs` and the execution frame of
  `src/runtime/frame.rs` (`ConstantPool::get/utf8/...`, `Frame::execute`).

Bytes are modelled as natural numbers (in the code they are `u8`; no definition
below depends on the 0..255 bound).  Rust panics (arithmetic underflow on
`usize`, out-of-bounds slice indexing, `Vec::with_capacity` overflow, explicit
`panic!`/`todo!`/`unwrap`) are modelled by an explicit `panic` outcome so that
aborting executions are distinguishable from `Ok`/`Err` results.
-/

namespace CF

/-- `Stream` from stream.rs: an immutable byte buffer plus a single offset. -/
structure Stream where
  data : List Nat
  offset : Nat
deriving DecidableEq

/-- `Stream::advance`: unconditionally moves the offset forward. -/
def Stream.advance (s : Stream) (len : Nat) : Stream :=
  { s with offset := s.offset + len }

/-- `Stream::read_bytes`: `self.data.get(self.offset..self.offset + len)`;
`none` when fewer than `len` bytes remain, otherwise the slice plus the
advanced stream. -/
def Stream.readBytes (s : Stream) (len : Nat) : Option (List Nat × Stream) :=
  if s.offset + len ≤ s.data.length then
    Option.some ((s.data.drop s.offset).take len, s.advance len)
  else
    Option.none

/-- `Stream::read::<u8>()` (`u8::parse` on a 1-byte slice). -/
def Stream.readU8 (s : Stream) : Option (Nat × Stream) :=
  match s.readBytes 1 with
  | Option.some ([b], s') => Option.some (b, s')
  | _ => Option.none

/-- `Stream::read::<u16>()`: two bytes, big-endian. -/
def Stream.readU16 (s : Stream) : Option (Nat × Stream) :=
  match s.readBytes 2 with
  | Option.some ([b1, b2], s') => Option.some (b1 * 256 + b2, s')
  | _ => Option.none

/-- `Stream::read::<u32>()`: four bytes, big-endian. -/
def Stream.readU32 (s : Stream) : Option (Nat × Stream) :=
  match s.readBytes 4 with
  | Option.some ([b1, b2, b3, b4], s') =>
      Option.some (((b1 * 256 + b2) * 256 + b3) * 256 + b4, s')
  | _ => Option.none

/-- `ParsingError` from lib.rs. -/
inductive ParsingError where
  | InvalidMagic
  | InvalidIndex
  | MissingField
  | UnhandledConstant (tag : Nat)
deriving DecidableEq

/-- Outcome of a parsing stage: an `Ok` value, an `Err`, or a Rust panic.
`ok` and `err` carry the stream state at the point of return (in the code the
stream is a `&mut` borrow of the caller's, so that state is observable). -/
inductive PResult (α : Type) where
  | ok (val : α) (s : Stream)
  | err (e : ParsingError) (s : Stream)
  | panic
deriving DecidableEq

/-- `Constant` from constant_pool.rs.  `Cls`/`Str` stand for the source's
`Class`/`String` constructors; `Utf8` keeps the raw bytes, as
`String::from_utf8_unchecked` does not validate them. -/
inductive Constant where
  | Cls (nameIndex : Nat)
  | FieldRef (classIndex nametypeIndex : Nat)
  | MethodRef (classIndex nametypeIndex : Nat)
  | Str (stringIndex : Nat)
  | NameAndType (nameIndex descriptorIndex : Nat)
  | Utf8 (bytes : List Nat)
deriving DecidableEq

/-- `read_constant` from constant_pool.rs: tag-dispatched payload reader;
`none` both for an unrecognized tag (the wildcard arm) and for a short read
inside a recognized payload (the `?` operator on `Option`). -/
def readConstant (s : Stream) (tag : Nat) : Option (Constant × Stream) :=
  if tag = 1 then
    match s.readU16 with
    | Option.none => Option.none
    | Option.some (length, s1) =>
      match s1.readBytes length with
      | Option.none => Option.none
      | Option.some (bs, s2) => Option.some (Constant.Utf8 bs, s2)
  else if tag = 7 then
    match s.readU16 with
    | Option.none => Option.none
    | Option.some (ci, s1) => Option.some (Constant.Cls ci, s1)
  else if tag = 8 then
    match s.readU16 with
    | Option.none => Option.none
    | Option.some (si, s1) => Option.some (Constant.Str si, s1)
  else if tag = 9 then
    match s.readU16 with
    | Option.none => Option.none
    | Option.some (ci, s1) =>
      match s1.readU16 with
      | Option.none => Option.none
      | Option.some (ni, s2) => Option.some (Constant.FieldRef ci ni, s2)
  else if tag = 10 then
    match s.readU16 with
    | Option.none => Option.none
    | Option.some (ci, s1) =>
      match s1.readU16 with
      | Option.none => Option.none
      | Option.some (ni, s2) => Option.some (Constant.MethodRef ci ni, s2)
  else if tag = 12 then
    match s.readU16 with
    | Option.none => Option.none
    | Option.some (ni, s1) =>
      match s1.readU16 with
      | Option.none => Option.none
      | Option.some (di, s2) => Option.some (Constant.NameAndType ni di, s2)
  else
    Option.none

/-- `ConstantPool` from constant_pool.rs. -/
structure ConstantPool where
  items : List Constant
deriving DecidableEq

/-- The body of `ConstantPool::parse`'s `for _ in 1..count` loop, with `n` the
number of entries still to read: read a tag byte (`MissingField` on short
read), dispatch through `read_constant` (`UnhandledConstant(tag)` when it
yields nothing), push the entry and continue. -/
def parseEntries : Nat → Stream → PResult (List Constant)
  | 0, s => PResult.ok [] s
  | n + 1, s =>
    match s.readU8 with
    | Option.none => PResult.err ParsingError.MissingField s
    | Option.some (tag, s1) =>
      match readConstant s1 tag with
      | Option.none => PResult.err (ParsingError.UnhandledConstant tag) s1
      | Option.some (c, s2) =>
        match parseEntries n s2 with
        | PResult.ok cs s3 => PResult.ok (c :: cs) s3
        | r => r

/-- `ConstantPool::parse` (the `FromSeries` impl): allocates
`Vec::with_capacity(count as usize - 1)` — when `count = 0` the `usize`
subtraction underflows (debug) or the wrapped capacity overflows (release),
both of which abort — then runs the entry loop `count - 1` times. -/
def ConstantPool.parse (count : Nat) (s : Stream) : PResult ConstantPool :=
  if count = 0 then
    PResult.panic
  else
    match parseEntries (count - 1) s with
    | PResult.ok cs s' => PResult.ok ⟨cs⟩ s'
    | PResult.err e s' => PResult.err e s'
    | PResult.panic => PResult.panic

/-- Outcome of `ConstantPool::resolve_name` (an `Option<String>` in the code,
plus the possibility of a panic). -/
inductive POption (α : Type) where
  | some (a : α)
  | none
  | panic
deriving DecidableEq

/-- `ConstantPool::resolve_name`: indexes `self.items[name_index as usize - 1]`
directly; `name_index = 0` underflows the `usize` subtraction and an
out-of-range index is an out-of-bounds panic. -/
def ConstantPool.resolveName (p : ConstantPool) (nameIndex : Nat) : POption (List Nat) :=
  if nameIndex = 0 then
    POption.panic
  else
    match p.items.get? (nameIndex - 1) with
    | Option.none => POption.panic
    | Option.some (Constant.Utf8 bs) => POption.some bs
    | Option.some _ => POption.none

/-- `ExceptionTableEntry` from attributes.rs. -/
structure ExceptionTableEntry where
  start_pc : Nat
  end_pc : Nat
  handler_pc : Nat
  catch_type : Nat
deriving DecidableEq

/-- `Attribute` from attributes.rs.  `Unhandled` carries the resolved name
bytes; `Code` nests a further attribute list. -/
inductive Attribute where
  | Unhandled (name : List Nat)
  | ConstantValue (constantIndex : Nat)
  | Code (max_stack max_locals : Nat) (code : List Nat)
      (exceptions : List ExceptionTableEntry) (attributes : List Attribute)
  | SourceFile (nameIndex : Nat)

/-- The `for` loop of `read_exception_table`, with `n` entries remaining. -/
def readExceptionEntries : Nat → Stream → PResult (List ExceptionTableEntry)
  | 0, s => PResult.ok [] s
  | n + 1, s =>
    match s.readU16 with
    | Option.none => PResult.err ParsingError.MissingField s
    | Option.some (start_pc, s1) =>
      match s1.readU16 with
      | Option.none => PResult.err ParsingError.MissingField s1
      | Option.some (end_pc, s2) =>
        match s2.readU16 with
        | Option.none => PResult.err ParsingError.MissingField s2
        | Option.some (handler_pc, s3) =>
          match s3.readU16 with
          | Option.none => PResult.err ParsingError.MissingField s3
          | Option.some (catch_type, s4) =>
            match readExceptionEntries n s4 with
            | PResult.ok es s5 =>
                PResult.ok (⟨start_pc, end_pc, handler_pc, catch_type⟩ :: es) s5
            | r => r

/-- `read_exception_table` from attributes.rs. -/
def readExceptionTable (s : Stream) : PResult (List ExceptionTableEntry) :=
  match s.readU16 with
  | Option.none => PResult.err ParsingError.MissingField s
  | Option.some (count, s1) => readExceptionEntries count s1

/-- The UTF-8 bytes of the attribute name `"ConstantValue"`. -/
def constantValueName : List Nat :=
  [67, 111, 110, 115, 116, 97, 110, 116, 86, 97, 108, 117, 101]

/-- The UTF-8 bytes of the attribute name `"Code"`. -/
def codeName : List Nat := [67, 111, 100, 101]

/-- The UTF-8 bytes of the attribute name `"SourceFile"`. -/
def sourceFileName : List Nat := [83, 111, 117, 114, 99, 101, 70, 105, 108, 101]

/-- The body of `read_attributes`' `for` loop (attributes.rs), with `n`
attributes remaining: read name-index and 4-byte length, resolve the name
through the pool (`InvalidIndex` when it is not Utf8; a panic propagates),
then either parse a recognized attribute structurally or push
`Unhandled(name)` and `stream.advance(length)`.  A `Code` attribute reads its
headers, code bytes and exception table, then runs the nested
`read_attributes` (count, then this same loop).  `fuel` is a termination
device only: every recursive call ticks it down once, each loop iteration
consumes at least 6 stream bytes, so any fuel larger than the buffer length
is never exhausted; exhaustion is mapped to the unreachable `panic`. -/
def readAttrLoopF (pool : ConstantPool) : Nat → Nat → Stream → PResult (List Attribute)
  | 0, _, _ => PResult.panic
  | _ + 1, 0, s => PResult.ok [] s
  | fuel + 1, m + 1, s =>
    match s.readU16 with
    | Option.none => PResult.err ParsingError.MissingField s
    | Option.some (nameIndex, s1) =>
      match s1.readU32 with
      | Option.none => PResult.err ParsingError.MissingField s1
      | Option.some (length, s2) =>
        match pool.resolveName nameIndex with
        | POption.panic => PResult.panic
        | POption.none => PResult.err ParsingError.InvalidIndex s2
        | POption.some name =>
          if name = constantValueName then
            match s2.readU16 with
            | Option.none => PResult.err ParsingError.MissingField s2
            | Option.some (ci, s3) =>
              match readAttrLoopF pool fuel m s3 with
              | PResult.ok attrs s' => PResult.ok (Attribute.ConstantValue ci :: attrs) s'
              | r => r
          else if name = codeName then
            match s2.readU16 with
            | Option.none => PResult.err ParsingError.MissingField s2
            | Option.some (max_stack, s3) =>
              match s3.readU16 with
              | Option.none => PResult.err ParsingError.MissingField s3
              | Option.some (max_locals, s4) =>
                match s4.readU32 with
                | Option.none => PResult.err ParsingError.MissingField s4
                | Option.some (code_length, s5) =>
                  match s5.readBytes code_length with
                  | Option.none => PResult.err ParsingError.MissingField s5
                  | Option.some (code_bytes, s6) =>
                    match readExceptionTable s6 with
                    | PResult.err e s' => PResult.err e s'
                    | PResult.panic => PResult.panic
                    | PResult.ok exceptions s7 =>
                      match s7.readU16 with
                      | Option.none => PResult.err ParsingError.MissingField s7
                      | Option.some (ncount, s7b) =>
                        match readAttrLoopF pool fuel ncount s7b with
                        | PResult.err e s' => PResult.err e s'
                        | PResult.panic => PResult.panic
                        | PResult.ok nested s8 =>
                          match readAttrLoopF pool fuel m s8 with
                          | PResult.ok attrs s' =>
                              PResult.ok
                                (Attribute.Code max_stack max_locals code_bytes
                                  exceptions nested :: attrs) s'
                          | r => r
          else if name = sourceFileName then
            match s2.readU16 with
            | Option.none => PResult.err ParsingError.MissingField s2
            | Option.some (ni, s3) =>
              match readAttrLoopF pool fuel m s3 with
              | PResult.ok attrs s' => PResult.ok (Attribute.SourceFile ni :: attrs) s'
              | r => r
          else
            match readAttrLoopF pool fuel m (s2.advance length) with
            | PResult.ok attrs s' => PResult.ok (Attribute.Unhandled name :: attrs) s'
            | r => r

/-- `read_attributes` from attributes.rs: read the count, then run the loop. -/
def readAttributesF (pool : ConstantPool) (fuel : Nat) (s : Stream) :
    PResult (List Attribute) :=
  match s.readU16 with
  | Option.none => PResult.err ParsingError.MissingField s
  | Option.some (count, s1) => readAttrLoopF pool fuel count s1

/-- `Field` from lib.rs; `access_flags` keeps the raw `u16` bits of
`FieldAccessFields`. -/
structure Field where
  access_flags : Nat
  name_index : Nat
  descriptor_index : Nat
  attributes : List Attribute

/-- `Field::parse` from lib.rs. -/
def Field.parse (pool : ConstantPool) (fuel : Nat) (s : Stream) : PResult Field :=
  match s.readU16 with
  | Option.none => PResult.err ParsingError.MissingField s
  | Option.some (access_flags, s1) =>
    match s1.readU16 with
    | Option.none => PResult.err ParsingError.MissingField s1
    | Option.some (name_index, s2) =>
      match s2.readU16 with
      | Option.none => PResult.err ParsingError.MissingField s2
      | Option.some (descriptor_index, s3) =>
        match readAttributesF pool fuel s3 with
        | PResult.ok attrs s4 =>
            PResult.ok ⟨access_flags, name_index, descriptor_index, attrs⟩ s4
        | PResult.err e s' => PResult.err e s'
        | PResult.panic => PResult.panic

/-- `Method` from lib.rs; `access_flags` keeps the raw `u16` bits of
`MethodAccessFlags`.  `Method::parse` reads the same shape as `Field::parse`. -/
structure Method where
  access_flags : Nat
  name_index : Nat
  descriptor_index : Nat
  attributes : List Attribute

/-- `Method::parse` from lib.rs. -/
def Method.parse (pool : ConstantPool) (fuel : Nat) (s : Stream) : PResult Method :=
  match s.readU16 with
  | Option.none => PResult.err ParsingError.MissingField s
  | Option.some (access_flags, s1) =>
    match s1.readU16 with
    | Option.none => PResult.err ParsingError.MissingField s1
    | Option.some (name_index, s2) =>
      match s2.readU16 with
      | Option.none => PResult.err ParsingError.MissingField s2
      | Option.some (descriptor_index, s3) =>
        match readAttributesF pool fuel s3 with
        | PResult.ok attrs s4 =>
            PResult.ok ⟨access_flags, name_index, descriptor_index, attrs⟩ s4
        | PResult.err e s' => PResult.err e s'
        | PResult.panic => PResult.panic

/-- The `for` loop reading `interfaces_count` u16 indices in `ClassFile::parse`. -/
def parseInterfaces : Nat → Stream → PResult (List Nat)
  | 0, s => PResult.ok [] s
  | n + 1, s =>
    match s.readU16 with
    | Option.none => PResult.err ParsingError.MissingField s
    | Option.some (i, s1) =>
      match parseInterfaces n s1 with
      | PResult.ok is s2 => PResult.ok (i :: is) s2
      | r => r

/-- The `for` loop pushing `Field::parse` results in `ClassFile::parse`. -/
def parseFields (pool : ConstantPool) (fuel : Nat) : Nat → Stream → PResult (List Field)
  | 0, s => PResult.ok [] s
  | n + 1, s =>
    match Field.parse pool fuel s with
    | PResult.ok f s1 =>
      match parseFields pool fuel n s1 with
      | PResult.ok fs s2 => PResult.ok (f :: fs) s2
      | r => r
    | PResult.err e s' => PResult.err e s'
    | PResult.panic => PResult.panic

/-- The `for` loop pushing `Method::parse` results in `ClassFile::parse`. -/
def parseMethods (pool : ConstantPool) (fuel : Nat) : Nat → Stream → PResult (List Method)
  | 0, s => PResult.ok [] s
  | n + 1, s =>
    match Method.parse pool fuel s with
    | PResult.ok f s1 =>
      match parseMethods pool fuel n s1 with
      | PResult.ok fs s2 => PResult.ok (f :: fs) s2
      | r => r
    | PResult.err e s' => PResult.err e s'
    | PResult.panic => PResult.panic

/-- `ClassFile` from lib.rs.  `access_flags` keeps the raw bits; `thisIdx` and
`superIdx` stand for the source's `this_class`/`super_class` fields. -/
structure ClassFile where
  minor_version : Nat
  major_version : Nat
  constant_pool : ConstantPool
  access_flags : Nat
  thisIdx : Nat
  superIdx : Nat
  interfaces : List Nat
  fields : List Field
  methods : List Method
  attributes : List Attribute

/-- `ClassFile::parse` from lib.rs: magic (any failure, short read or wrong
value, is `InvalidMagic`), versions, pool count and pool, flags, this/super,
interfaces, fields, methods, trailing class-level attributes.  The fuel handed
to the attribute decoder exceeds the buffer length, so it is never
exhausted. -/
def ClassFile.parse (data : List Nat) : PResult ClassFile :=
  let fuel := data.length + 1
  let s : Stream := ⟨data, 0⟩
  match s.readU32 with
  | Option.none => PResult.err ParsingError.InvalidMagic s
  | Option.some (magic, s1) =>
    if magic = 0xCAFEBABE then
      match s1.readU16 with
      | Option.none => PResult.err ParsingError.MissingField s1
      | Option.some (minor_version, s2) =>
        match s2.readU16 with
        | Option.none => PResult.err ParsingError.MissingField s2
        | Option.some (major_version, s3) =>
          match s3.readU16 with
          | Option.none => PResult.err ParsingError.MissingField s3
          | Option.some (count, s4) =>
            match ConstantPool.parse count s4 with
            | PResult.err e s' => PResult.err e s'
            | PResult.panic => PResult.panic
            | PResult.ok pool s5 =>
              match s5.readU16 with
              | Option.none => PResult.err ParsingError.MissingField s5
              | Option.some (access_flags, s6) =>
                match s6.readU16 with
                | Option.none => PResult.err ParsingError.MissingField s6
                | Option.some (thisIdx, s7) =>
                  match s7.readU16 with
                  | Option.none => PResult.err ParsingError.MissingField s7
                  | Option.some (superIdx, s8) =>
                    match s8.readU16 with
                    | Option.none => PResult.err ParsingError.MissingField s8
                    | Option.some (icount, s9) =>
                      match parseInterfaces icount s9 with
                      | PResult.err e s' => PResult.err e s'
                      | PResult.panic => PResult.panic
                      | PResult.ok interfaces s10 =>
                        match s10.readU16 with
                        | Option.none => PResult.err ParsingError.MissingField s10
                        | Option.some (fcount, s11) =>
                          match parseFields pool fuel fcount s11 with
                          | PResult.err e s' => PResult.err e s'
                          | PResult.panic => PResult.panic
                          | PResult.ok fields s12 =>
                            match s12.readU16 with
                            | Option.none => PResult.err ParsingError.MissingField s12
                            | Option.some (mcount, s13) =>
                              match parseMethods pool fuel mcount s13 with
                              | PResult.err e s' => PResult.err e s'
                              | PResult.panic => PResult.panic
                              | PResult.ok methods s14 =>
                                match readAttributesF pool fuel s14 with
                                | PResult.err e s' => PResult.err e s'
                                | PResult.panic => PResult.panic
                                | PResult.ok attributes s15 =>
                                  PResult.ok
                                    ⟨minor_version, major_version, pool,
                                      access_flags, thisIdx, superIdx,
                                      interfaces, fields, methods, attributes⟩ s15
    else
      PResult.err ParsingError.InvalidMagic s1

/-- Projects the `Err` variant of a parse outcome, if any. -/
def errOf {α : Type} : PResult α → Option ParsingError
  | PResult.err e _ => Option.some e
  | _ => Option.none

/-- Whether a parse outcome is an `Ok`. -/
def isOkR {α : Type} : PResult α → Bool
  | PResult.ok _ _ => true
  | _ => false

end CF

namespace RT

/-- `Constant` from parser.rs (the nom-based, richer pool model used by the
runtime).  `Cls`/`Str` stand for the source's `Class`/`String` constructors.
The `Float`/`Double` payloads (`f32`/`f64`) are not modelled — no claim
computes with them and floating point is outside the embedding; only their
type tags matter to the lookups. -/
inductive Constant where
  | Utf8 (bytes : List Nat)
  | Integer (value : Int)
  | FloatC
  | Long (value : Int)
  | DoubleC
  | Cls (nameIndex : Nat)
  | Str (stringIndex : Nat)
  | Field (classIndex nametypeIndex : Nat)
  | Method (classIndex nametypeIndex : Nat)
  | InterfaceMethod (classIndex nametypeIndex : Nat)
  | NameAndType (nameIndex descriptorIndex : Nat)
deriving DecidableEq

/-- Outcome of a pool lookup from parser.rs: these return the value directly
and panic on a bad index (`items[index - 1]` underflow / out of bounds) or on
a variant mismatch (`_ => panic!()`). -/
inductive Lookup (α : Type) where
  | found (a : α)
  | panic
deriving DecidableEq

/-- `ConstantPool` from parser.rs. -/
structure ConstantPool where
  items : List Constant
deriving DecidableEq

/-- `ConstantPool::get`: `&self.items[index as usize - 1]`. -/
def ConstantPool.get (p : ConstantPool) (index : Nat) : Lookup Constant :=
  if index = 0 then
    Lookup.panic
  else
    match p.items.get? (index - 1) with
    | Option.none => Lookup.panic
    | Option.some c => Lookup.found c

/-- `ConstantPool::utf8`: the slot must hold a `Utf8`. -/
def ConstantPool.utf8 (p : ConstantPool) (index : Nat) : Lookup (List Nat) :=
  match p.get index with
  | Lookup.panic => Lookup.panic
  | Lookup.found (Constant.Utf8 bs) => Lookup.found bs
  | Lookup.found _ => Lookup.panic

/-- `ConstantPool::integer`: the slot must hold an `Integer`. -/
def ConstantPool.integer (p : ConstantPool) (index : Nat) : Lookup Int :=
  match p.get index with
  | Lookup.panic => Lookup.panic
  | Lookup.found (Constant.Integer v) => Lookup.found v
  | Lookup.found _ => Lookup.panic

/-- `ConstantPool::name_and_type`: the slot must hold a `NameAndType`, whose
two indices are then resolved through `utf8` (each of which may panic). -/
def ConstantPool.nameAndType (p : ConstantPool) (index : Nat) :
    Lookup (List Nat × List Nat) :=
  match p.get index with
  | Lookup.panic => Lookup.panic
  | Lookup.found (Constant.NameAndType ni di) =>
    match p.utf8 ni with
    | Lookup.panic => Lookup.panic
    | Lookup.found nb =>
      match p.utf8 di with
      | Lookup.panic => Lookup.panic
      | Lookup.found db => Lookup.found (nb, db)
  | Lookup.found _ => Lookup.panic

/-- `ConstantPool::class`: the slot must hold a `Class`, whose name index is
resolved through `utf8`. -/
def ConstantPool.classAt (p : ConstantPool) (index : Nat) : Lookup (List Nat) :=
  match p.get index with
  | Lookup.panic => Lookup.panic
  | Lookup.found (Constant.Cls ni) => p.utf8 ni
  | Lookup.found _ => Lookup.panic

/-- `ConstantPool::field`: the slot must hold a `Field` reference. -/
def ConstantPool.field (p : ConstantPool) (index : Nat) : Lookup (Nat × Nat) :=
  match p.get index with
  | Lookup.panic => Lookup.panic
  | Lookup.found (Constant.Field ci ni) => Lookup.found (ci, ni)
  | Lookup.found _ => Lookup.panic

/-- `ConstantPool::method`: the slot must hold a `Method` reference. -/
def ConstantPool.method (p : ConstantPool) (index : Nat) : Lookup (Nat × Nat) :=
  match p.get index with
  | Lookup.panic => Lookup.panic
  | Lookup.found (Constant.Method ci ni) => Lookup.found (ci, ni)
  | Lookup.found _ => Lookup.panic

/-- Modelled from the spec: the `Instruction` type produced by the Instruction
Decoder (spec 4.4 and the Data Model's Instruction entry).  Its source file
(`instructions.rs`, the `instruction` parser) is not under src/; the variants
are exactly the opcodes `Frame::execute` dispatches on, each carrying its
decoded operand (pool/local index or sign-extended byte immediate). -/
inductive Instruction where
  | Getstatic (index : Nat)
  | Ldc (index : Nat)
  | Bipush (value : Int)
  | Istore (index : Nat)
  | Invokevirtual (index : Nat)
deriving DecidableEq

/-- Sign extension of a byte to the stack's integer cell (spec 4.6:
"push-immediate-byte (sign-extended)"). -/
def sByte (v : Nat) : Int :=
  if v < 128 then (v : Int) else (v : Int) - 256

/-- Modelled from the spec: the Instruction Decoder (spec 4.4), whose source
file (`instructions.rs`) is not under src/.  Each opcode-specific reader
consumes the exact operand width of its opcode (bipush 0x10: 1-byte signed
immediate; ldc 0x12: 1-byte pool index; istore 0x36: 1-byte local index;
getstatic 0xB2 and invokevirtual 0xB6: 2-byte big-endian pool index), an
unrecognized opcode is a terminal decode error, and each decoded instruction
is paired here with its byte offset into the code array so that the
addressing claims can be stated. -/
def decodeAll : List Nat → Nat → Option (List (Nat × Instruction))
  | [], _ => Option.some []
  | b :: rest, off =>
    if b = 0x10 then
      match rest with
      | v :: r2 => (decodeAll r2 (off + 2)).map (fun l => (off, Instruction.Bipush (sByte v)) :: l)
      | [] => Option.none
    else if b = 0x12 then
      match rest with
      | v :: r2 => (decodeAll r2 (off + 2)).map (fun l => (off, Instruction.Ldc v) :: l)
      | [] => Option.none
    else if b = 0x36 then
      match rest with
      | v :: r2 => (decodeAll r2 (off + 2)).map (fun l => (off, Instruction.Istore v) :: l)
      | [] => Option.none
    else if b = 0xB2 then
      match rest with
      | b1 :: b2 :: r2 =>
          (decodeAll r2 (off + 3)).map (fun l => (off, Instruction.Getstatic (b1 * 256 + b2)) :: l)
      | _ => Option.none
    else if b = 0xB6 then
      match rest with
      | b1 :: b2 :: r2 =>
          (decodeAll r2 (off + 3)).map (fun l => (off, Instruction.Invokevirtual (b1 * 256 + b2)) :: l)
      | _ => Option.none
    else
      Option.none

/-- `Attribute` from parser.rs (the runtime's attribute model; `Code` carries
the decoded instruction sequence). -/
inductive Attr where
  | ConstantValue (index : Nat)
  | Code (max_stack max_locals : Nat) (code : List Instruction)
  | Unknown (nameIndex : Nat)
deriving DecidableEq

/-- `MethodInfo` from parser.rs; `access_flags` keeps the raw bits. -/
structure MethodInfo where
  access_flags : Nat
  name_index : Nat
  descriptor_index : Nat
  attributes : List Attr
deriving DecidableEq

/-- `MethodInfo::code` before its `.unwrap()`: the first `Code` attribute's
instruction list, if any. -/
def MethodInfo.codeOf (m : MethodInfo) : Option (List Instruction) :=
  m.attributes.findSome? fun a =>
    match a with
    | Attr.Code _ _ code => Option.some code
    | _ => Option.none

/-- `OperandItem` from frame.rs.  The `Float`/`Double` payloads and the
`Reference` payload (`Object`) are not modelled; only the type tags matter to
the instructions under verification. -/
inductive OperandItem where
  | Integer (value : Int)
  | FloatItem
  | Long (value : Int)
  | DoubleItem
  | Reference
  | Padding
deriving DecidableEq

/-- `FrameError` from frame.rs: its only variant. -/
inductive FrameError where
  | StackUnderflow
deriving DecidableEq

/-- `FrameResult` from frame.rs. -/
inductive FrameResult where
  | NextFrame (m : MethodInfo)
  | Finished
deriving DecidableEq

/-- `Frame` from frame.rs: constant pool, method, program counter and operand
stack — the complete state; there is no local-variable storage. -/
structure Frame where
  constant_pool : ConstantPool
  method : MethodInfo
  pc : Nat
  operand_stack : List OperandItem
deriving DecidableEq

/-- Effect of one arm of `Frame::execute`'s `match inst` on the operand
stack: continue with a new stack, return an error, or panic. -/
inductive StepRes where
  | cont (stack : List OperandItem)
  | err (e : FrameError)
  | panic
deriving DecidableEq

/-- The `match inst` body of `Frame::execute` (frame.rs): `Getstatic` and
`Invokevirtual` resolve (and print) the referenced constant via the
`unwrap_constant!` macro (`field`/`method`, then `class` and
`name_and_type`); `Ldc` prints a `String` constant or pushes an `Integer`
(`todo!()` otherwise); `Bipush` pushes its sign-extended immediate (`value as
i32` is value-preserving); `Istore` pops — `StackUnderflow` on an empty stack
— prints an `Integer` (storing is a TODO in the source, the value is
discarded) and panics on any other operand type; all other opcodes fall
through the `_ => {}` arm (none exist in the decoded instruction set). -/
def execInst (cp : ConstantPool) (inst : Instruction) (stack : List OperandItem) : StepRes :=
  match inst with
  | Instruction.Getstatic index =>
    match cp.field index with
    | Lookup.panic => StepRes.panic
    | Lookup.found (ci, ni) =>
      match cp.classAt ci with
      | Lookup.panic => StepRes.panic
      | Lookup.found _ =>
        match cp.nameAndType ni with
        | Lookup.panic => StepRes.panic
        | Lookup.found _ => StepRes.cont stack
  | Instruction.Ldc index =>
    match cp.get index with
    | Lookup.panic => StepRes.panic
    | Lookup.found (Constant.Str si) =>
      match cp.utf8 si with
      | Lookup.panic => StepRes.panic
      | Lookup.found _ => StepRes.cont stack
    | Lookup.found (Constant.Integer v) => StepRes.cont (OperandItem.Integer v :: stack)
    | Lookup.found _ => StepRes.panic
  | Instruction.Bipush v => StepRes.cont (OperandItem.Integer v :: stack)
  | Instruction.Istore _ =>
    match stack with
    | [] => StepRes.err FrameError.StackUnderflow
    | v :: rest =>
      match v with
      | OperandItem.Integer _ => StepRes.cont rest
      | _ => StepRes.panic
  | Instruction.Invokevirtual index =>
    match cp.method index with
    | Lookup.panic => StepRes.panic
    | Lookup.found (ci, ni) =>
      match cp.classAt ci with
      | Lookup.panic => StepRes.panic
      | Lookup.found _ =>
        match cp.nameAndType ni with
        | Lookup.panic => StepRes.panic
        | Lookup.found _ => StepRes.cont stack

/-- Result of `Frame::execute`: `Ok(FrameResult::Finished)` — carrying the
final pc and operand stack, which remain observable in the `&mut self` frame —
an `Err(FrameError)`, or a panic. -/
inductive ExecResult where
  | finished (pc : Nat) (stack : List OperandItem)
  | err (e : FrameError)
  | panic
deriving DecidableEq

/-- The `while self.pc < code.len()` loop of `Frame::execute`: fetch
`code[self.pc]`, apply the instruction arm, then `self.pc += 1`. -/
def executeLoop (cp : ConstantPool) (code : List Instruction) (pc : Nat)
    (stack : List OperandItem) : ExecResult :=
  if h : pc < code.length then
    match execInst cp (code.get ⟨pc, h⟩) stack with
    | StepRes.cont st => executeLoop cp code (pc + 1) st
    | StepRes.err e => ExecResult.err e
    | StepRes.panic => ExecResult.panic
  else
    ExecResult.finished pc stack
termination_by code.length - pc

/-- `Frame::execute`: `self.method.code()` (whose `.unwrap()` panics when the
method has no `Code` attribute), then the interpretation loop starting from
the frame's current pc and stack. -/
def Frame.execute (f : Frame) : ExecResult :=
  match f.method.codeOf with
  | Option.none => ExecResult.panic
  | Option.some code => executeLoop f.constant_pool code f.pc f.operand_stack

/-- One iteration of `Frame::execute`'s `while` loop viewed as a transition on
the whole `Frame` record (the loop body of frame.rs verbatim: fetch at
`self.pc`, dispatch, `self.pc += 1`). -/
inductive FrameStepRes where
  | next (f : Frame)
  | done
  | err (e : FrameError)
  | panic
deriving DecidableEq

/-- Single-iteration view of `Frame::execute` used to state per-instruction
frame effects: identical to one pass of `executeLoop`, returning the updated
frame. -/
def frameStep (f : Frame) : FrameStepRes :=
  match f.method.codeOf with
  | Option.none => FrameStepRes.panic
  | Option.some code =>
    if h : f.pc < code.length then
      match execInst f.constant_pool (code.get ⟨f.pc, h⟩) f.operand_stack with
      | StepRes.cont st => FrameStepRes.next { f with pc := f.pc + 1, operand_stack := st }
      | StepRes.err e => FrameStepRes.err e
      | StepRes.panic => FrameStepRes.panic
    else
      FrameStepRes.done

/-- Projects the `Err` variant of an execution outcome, if any. -/
def errExecOf : ExecResult → Option FrameError
  | ExecResult.err e => Option.some e
  | _ => Option.none

end RT

/-! ### Concrete inputs used by the individual verification results -/

/-- Magic, minor=0, major=52, then a declared constant-pool count of 0. -/
def countZeroBytes : List Nat := [0xCA, 0xFE, 0xBA, 0xBE, 0, 0, 0, 0x34, 0, 0]

/-- A structurally complete class file (empty pool, no interfaces, fields or
methods) whose single class-level attribute has name-index 0. -/
def badNameIdxBytes : List Nat :=
  [0xCA, 0xFE, 0xBA, 0xBE, 0, 0, 0, 0x34, 0, 1, 0, 0x21,
   0, 0, 0, 0, 0, 0, 0, 0, 0, 0, 0, 1, 0, 0, 0, 0, 0, 0]

/-- The spec's minimal scenario buffer: magic, minor=0, major=52, pool
count=1, flags=0x0021, this=0, super=0, and zero interfaces, fields, methods
and attributes (24 bytes). -/
def bytesMin : List Nat :=
  [0xCA, 0xFE, 0xBA, 0xBE, 0, 0, 0, 0x34, 0, 1, 0, 0x21,
   0, 0, 0, 0, 0, 0, 0, 0, 0, 0, 0, 0]

/-- The class file `bytesMin` parses to. -/
def cfMin : CF.ClassFile := ⟨0, 52, ⟨[]⟩, 0x21, 0, 0, [], [], [], []⟩

/-- A well-formed 28-byte class file with one pool entry (a 1-byte Utf8
`"A"` at offsets 10..13) and otherwise empty collections; used to exercise
truncation at every cut point. -/
def bytes28 : List Nat :=
  [0xCA, 0xFE, 0xBA, 0xBE, 0, 0, 0, 0x34, 0, 2, 1, 0, 1, 0x41,
   0, 0x21, 0, 0, 0, 0, 0, 0, 0, 0, 0, 0, 0, 0]

/-- A well-formed 36-byte class file whose trailing class-level attribute has
the unrecognized name `"A"` and a declared length of 2 covering the last two
bytes. -/
def bytesU : List Nat :=
  [0xCA, 0xFE, 0xBA, 0xBE, 0, 0, 0, 0x34, 0, 2, 1, 0, 1, 0x41,
   0, 0x21, 0, 0, 0, 0, 0, 0, 0, 0, 0, 0, 0, 1, 0, 1, 0, 0, 0, 2, 0xAB, 0xCD]

/-- A pool with the single Utf8 entry `"X"` (byte 88). -/
def cpX : CF.ConstantPool := ⟨[CF.Constant.Utf8 [88]]⟩

/-- An attribute record: name-index 1, declared length 2, payload bytes 9 9,
then two further bytes. -/
def attrStreamX : CF.Stream := ⟨[0, 1, 0, 0, 0, 2, 9, 9, 0, 0], 0⟩

/-- A constant-pool byte stream starting with the unrecognized tag 3
(`Integer`, unsupported by this parser). -/
def tagStream3 : CF.Stream := ⟨[3, 0, 0, 0, 0], 0⟩

/-- A constant-pool byte stream of two entries: tag 7 (`Class`, name-index 2)
and tag 1 (Utf8 `"A"`). -/
def cpStream7 : CF.Stream := ⟨[7, 0, 2, 1, 0, 1, 65], 0⟩

/-- The pool parsed from `cpStream7` with declared count 3. -/
def cpool7 : CF.ConstantPool := ⟨[CF.Constant.Cls 2, CF.Constant.Utf8 [65]]⟩

/-- The empty runtime constant pool. -/
def cpEmpty : RT.ConstantPool := ⟨[]⟩

/-- A method whose `Code` attribute holds `bipush 5; istore 1` (byte offsets 0
and 2 in the 4-byte encoded form). -/
def methodBI : RT.MethodInfo :=
  ⟨0, 0, 0, [RT.Attr.Code 1 1 [RT.Instruction.Bipush 5, RT.Instruction.Istore 1]]⟩

/-- A fresh frame over `methodBI`. -/
def frameBI : RT.Frame := ⟨cpEmpty, methodBI, 0, []⟩

/-- A method whose `Code` attribute holds a single `istore 0`. -/
def methodIst : RT.MethodInfo := ⟨0, 0, 0, [RT.Attr.Code 1 1 [RT.Instruction.Istore 0]]⟩

/-- A frame about to execute `istore 0` with a non-integer operand on top. -/
def frameMismatch : RT.Frame := ⟨cpEmpty, methodIst, 0, [RT.OperandItem.Padding]⟩

/-- A frame about to execute `istore 0` with an empty operand stack. -/
def frameEmptyStack : RT.Frame := ⟨cpEmpty, methodIst, 0, []⟩

/-- A frame about to execute `istore 0` with the integer 7 on top. -/
def frameIntTop : RT.Frame := ⟨cpEmpty, methodIst, 0, [RT.OperandItem.Integer 7]⟩

/-! ### Helper lemmas -/

/-- A successful `read_bytes` keeps the buffer and advances the offset by
exactly the requested length. -/
theorem readBytes_consumes {s : CF.Stream} {len : Nat} {bs : List Nat} {s' : CF.Stream}
    (h : s.readBytes len = Option.some (bs, s')) :
    s'.data = s.data ∧ s'.offset = s.offset + len := by
  unfold CF.Stream.readBytes at h
  split at h
  · cases h
    exact ⟨rfl, rfl⟩
  · cases h

/-- A successful `read::<u8>()` keeps the buffer and advances by 1. -/
theorem readU8_consumes {s : CF.Stream} {v : Nat} {s' : CF.Stream}
    (h : s.readU8 = Option.some (v, s')) :
    s'.data = s.data ∧ s'.offset = s.offset + 1 := by
  unfold CF.Stream.readU8 at h
  split at h
  · rename_i heq
    cases h
    exact readBytes_consumes heq
  · cases h

/-- A successful `read::<u16>()` keeps the buffer and advances by 2. -/
theorem readU16_consumes {s : CF.Stream} {v : Nat} {s' : CF.Stream}
    (h : s.readU16 = Option.some (v, s')) :
    s'.data = s.data ∧ s'.offset = s.offset + 2 := by
  unfold CF.Stream.readU16 at h
  split at h
  · rename_i heq
    cases h
    exact readBytes_consumes heq
  · cases h

/-- A successful `read::<u32>()` keeps the buffer and advances by 4. -/
theorem readU32_consumes {s : CF.Stream} {v : Nat} {s' : CF.Stream}
    (h : s.readU32 = Option.some (v, s')) :
    s'.data = s.data ∧ s'.offset = s.offset + 4 := by
  unfold CF.Stream.readU32 at h
  split at h
  · rename_i heq
    cases h
    exact readBytes_consumes heq
  · cases h

/-- The pool-entry loop pushes exactly one constant per remaining entry: a
successful run of `n` iterations yields `n` entries. -/
theorem parseEntries_length_of_ok {n : Nat} {s : CF.Stream} {cs : List CF.Constant}
    {s' : CF.Stream} (h : CF.parseEntries n s = CF.PResult.ok cs s') :
    cs.length = n := by
  induction n generalizing s cs s' with
  | zero =>
    unfold CF.parseEntries at h
    cases h
    rfl
  | succ m ih =>
    unfold CF.parseEntries at h
    cases hread : s.readU8 with
    | none => simp [hread] at h
    | some ts =>
      obtain ⟨tag, s1⟩ := ts
      simp only [hread] at h
      cases hconst : CF.readConstant s1 tag with
      | none => simp [hconst] at h
      | some cs2 =>
        obtain ⟨c, s2⟩ := cs2
        simp only [hconst] at h
        cases heq : CF.parseEntries m s2 with
        | ok cs0 s3 =>
          simp only [heq] at h
          cases h
          simp [ih heq]
        | err e s3 => simp [heq] at h
        | panic => simp [heq] at h

/-- Splitting the pool-entry loop: a successful run of `m + k` iterations is a
successful run of `m` iterations followed by one of `k`, and the resulting
entry list is the concatenation, in parse order. -/
theorem parseEntries_split {m k : Nat} {s : CF.Stream} {cs : List CF.Constant}
    {s' : CF.Stream} (h : CF.parseEntries (m + k) s = CF.PResult.ok cs s') :
    ∃ xs s1 ys, CF.parseEntries m s = CF.PResult.ok xs s1
      ∧ CF.parseEntries k s1 = CF.PResult.ok ys s'
      ∧ cs = xs ++ ys ∧ xs.length = m := by
  induction m generalizing s cs with
  | zero =>
    rw [Nat.zero_add] at h
    exact ⟨[], s, cs, rfl, h, rfl, rfl⟩
  | succ m' ih =>
    have hrw : m' + 1 + k = (m' + k) + 1 := by omega
    rw [hrw] at h
    unfold CF.parseEntries at h
    cases hread : s.readU8 with
    | none => simp [hread] at h
    | some ts =>
      obtain ⟨tag, s1⟩ := ts
      simp only [hread] at h
      cases hconst : CF.readConstant s1 tag with
      | none => simp [hconst] at h
      | some cs2 =>
        obtain ⟨c, s2⟩ := cs2
        simp only [hconst] at h
        cases heq : CF.parseEntries (m' + k) s2 with
        | ok cs0 s3 =>
          simp only [heq] at h
          cases h
          obtain ⟨xs, sm, ys, hm, hk, hcat, hlen⟩ := ih heq
          refine ⟨c :: xs, sm, ys, ?_, hk, by simp [hcat], by simp [hlen]⟩
          unfold CF.parseEntries
          simp only [hread, hconst, hm]
        | err e s3 => simp [heq] at h
        | panic => simp [heq] at h

/-! ### Claim results -/

/-- C1: class-file parsing is claimed total (always `Ok`/`Err`, never a
panic), but the code aborts: a declared constant-pool count of 0 underflows
`Vec::with_capacity(count - 1)` in `ConstantPool::parse`, and an attribute
whose name-index is 0 (or out of range of the pool) panics inside
`resolve_name`'s `items[name_index - 1]` indexing.  Both malformed buffers
below drive `ClassFile::parse` into the panic outcome. -/
theorem classfile_parse_aborts_on_malformed_input :
    CF.ClassFile.parse countZeroBytes = CF.PResult.panic
    ∧ CF.ClassFile.parse badNameIdxBytes = CF.PResult.panic
    ∧ CF.ConstantPool.parse 0 ⟨[], 0⟩ = CF.PResult.panic
    ∧ CF.ConstantPool.resolveName ⟨[]⟩ 0 = CF.POption.panic
    ∧ CF.ConstantPool.resolveName ⟨[]⟩ 5 = CF.POption.panic :=
  ⟨rfl, rfl, rfl, rfl, rfl⟩

/-- C9: the spec's minimal scenario buffer (magic, minor=0, major=52, pool
count=1, flags=0x0021, this=0, super=0, zero interfaces/fields/methods/
attributes) parses successfully into a `ClassFile` with an empty pool,
zero-length collections and the scalar fields recorded verbatim. -/
theorem minimal_classfile_parses :
    CF.ClassFile.parse bytesMin = CF.PResult.ok cfMin ⟨bytesMin, 24⟩
    ∧ cfMin.minor_version = 0 ∧ cfMin.major_version = 52
    ∧ cfMin.constant_pool.items = [] ∧ cfMin.access_flags = 0x21
    ∧ cfMin.thisIdx = 0 ∧ cfMin.superIdx = 0
    ∧ cfMin.interfaces = [] ∧ cfMin.fields = [] ∧ cfMin.methods = []
    ∧ cfMin.attributes = [] :=
  ⟨rfl, rfl, rfl, rfl, rfl, rfl, rfl, rfl, rfl, rfl, rfl⟩

/-- C2 (counterexample): `bytes28` is well-formed (its full parse succeeds),
yet truncating it at cut point 11 — inside the constant-pool entry's payload,
just after the tag byte — fails with `UnhandledConstant(1)`, not with a
`MissingField`-class error, refuting the claim that every cut point yields
`MissingField`. -/
theorem truncation_missing_field_counterexample :
    CF.isOkR (CF.ClassFile.parse bytes28) = true
    ∧ CF.errOf (CF.ClassFile.parse (bytes28.take 11)) =
        Option.some (CF.ParsingError.UnhandledConstant 1)
    ∧ CF.ParsingError.UnhandledConstant 1 ≠ CF.ParsingError.MissingField := by
  decide

/-- C2 (amended): truncating the well-formed buffer `bytes28` at any of its 28
cut points always yields an `Err` (never a panic, never a partially populated
`ClassFile`), but the error kind is `InvalidMagic` for cuts inside the 4-byte
magic and `UnhandledConstant(1)` for cuts inside the recognized pool entry's
payload after its tag byte; `MissingField` at every other cut point.
Moreover, when a well-formed file ends in an unrecognized attribute
(`bytesU`), a cut inside that attribute's skipped payload is not detected at
all: parsing succeeds. -/
theorem truncation_error_kinds :
    (∀ c : Nat, c < 28 →
      CF.errOf (CF.ClassFile.parse (bytes28.take c)) =
        Option.some
          (if c < 4 then CF.ParsingError.InvalidMagic
           else if 11 ≤ c ∧ c ≤ 13 then CF.ParsingError.UnhandledConstant 1
           else CF.ParsingError.MissingField))
    ∧ bytes28.length = 28
    ∧ CF.isOkR (CF.ClassFile.parse bytesU) = true
    ∧ CF.isOkR (CF.ClassFile.parse (bytesU.take 35)) = true := by
  refine ⟨by decide, by decide, by decide, by decide⟩

/-- C2 (witness): the amended statement evaluated at cut point 5. -/
theorem truncation_error_kinds_witness :
    CF.errOf (CF.ClassFile.parse (bytes28.take 5)) =
      Option.some
        (if 5 < 4 then CF.ParsingError.InvalidMagic
         else if 11 ≤ 5 ∧ 5 ≤ 13 then CF.ParsingError.UnhandledConstant 1
         else CF.ParsingError.MissingField) :=
  truncation_error_kinds.1 5 (by decide)

/-- C6: when the next byte of the pool stream is a tag outside the recognized
set {1, 7, 8, 9, 10, 12}, the entry loop — and `ConstantPool::parse` run with
the corresponding declared count — fails with `UnhandledConstant(tag)`, and
the stream at the failure point has consumed exactly the one tag byte and
nothing further. -/
theorem unrecognized_tag_stops_pool_parse :
    ∀ (n : Nat) (s s1 : CF.Stream) (tag : Nat),
      s.readU8 = Option.some (tag, s1) →
      tag ≠ 1 → tag ≠ 7 → tag ≠ 8 → tag ≠ 9 → tag ≠ 10 → tag ≠ 12 →
      CF.parseEntries (n + 1) s =
          CF.PResult.err (CF.ParsingError.UnhandledConstant tag) s1
        ∧ CF.ConstantPool.parse (n + 2) s =
            CF.PResult.err (CF.ParsingError.UnhandledConstant tag) s1
        ∧ s1.data = s.data ∧ s1.offset = s.offset + 1 := by
  intro n s s1 tag hread h1 h7 h8 h9 h10 h12
  have hconst : CF.readConstant s1 tag = Option.none := by
    unfold CF.readConstant
    simp [h1, h7, h8, h9, h10, h12]
  have hloop : CF.parseEntries (n + 1) s =
      CF.PResult.err (CF.ParsingError.UnhandledConstant tag) s1 := by
    unfold CF.parseEntries
    simp only [hread, hconst]
  refine ⟨hloop, ?_, (readU8_consumes hread).1, (readU8_consumes hread).2⟩
  unfold CF.ConstantPool.parse
  have : n + 2 - 1 = n + 1 := by omega
  simp [this, hloop]

/-- C6 (witness): the theorem applied to a stream starting with tag 3
(`Integer`, unrecognized by this parser). -/
theorem unrecognized_tag_stops_pool_parse_witness :
    CF.parseEntries 1 tagStream3 =
        CF.PResult.err (CF.ParsingError.UnhandledConstant 3) ⟨[3, 0, 0, 0, 0], 1⟩
      ∧ CF.ConstantPool.parse 2 tagStream3 =
          CF.PResult.err (CF.ParsingError.UnhandledConstant 3) ⟨[3, 0, 0, 0, 0], 1⟩
      ∧ (⟨[3, 0, 0, 0, 0], 1⟩ : CF.Stream).data = tagStream3.data
      ∧ (⟨[3, 0, 0, 0, 0], 1⟩ : CF.Stream).offset = tagStream3.offset + 1 :=
  unrecognized_tag_stops_pool_parse 0 tagStream3 ⟨[3, 0, 0, 0, 0], 1⟩ 3 rfl
    (by decide) (by decide) (by decide) (by decide) (by decide) (by decide)

/-- C5: one iteration of the attribute-decoder loop on a record whose name
resolves to a string outside the recognized set equals: exactly one
`Unhandled(name)` marker consed onto whatever the rest of the loop produces,
with the cursor moved to exactly 6 bytes of header plus the declared length
past the record's start — the position of the next attribute's name-index
field — independently of the payload body. -/
theorem unhandled_attribute_skips_declared_length :
    ∀ (pool : CF.ConstantPool) (fuel n : Nat) (s s1 s2 : CF.Stream)
      (ni length : Nat) (name : List Nat),
      s.readU16 = Option.some (ni, s1) →
      s1.readU32 = Option.some (length, s2) →
      pool.resolveName ni = CF.POption.some name →
      name ≠ CF.constantValueName → name ≠ CF.codeName → name ≠ CF.sourceFileName →
      CF.readAttrLoopF pool (fuel + 1) (n + 1) s =
        (match CF.readAttrLoopF pool fuel n (s2.advance length) with
         | CF.PResult.ok attrs s' =>
             CF.PResult.ok (CF.Attribute.Unhandled name :: attrs) s'
         | r => r)
      ∧ (s2.advance length).data = s.data
      ∧ (s2.advance length).offset = s.offset + 6 + length := by
  intro pool fuel n s s1 s2 ni length name h16 h32 hres hcv hcode hsf
  have hd1 := readU16_consumes h16
  have hd2 := readU32_consumes h32
  refine ⟨?_, ?_, ?_⟩
  · conv_lhs => rw [CF.readAttrLoopF]
    simp only [h16, h32, hres, if_neg hcv, if_neg hcode, if_neg hsf]
  · simp [CF.Stream.advance, hd1.1, hd2.1]
  · simp only [CF.Stream.advance]
    omega

/-- C5 (witness): the theorem applied to the concrete record `attrStreamX`
(name-index 1 resolving to `"X"`, declared length 2) over the pool `cpX`. -/
theorem unhandled_attribute_skips_declared_length_witness :
    CF.readAttrLoopF cpX 2 1 attrStreamX =
        CF.PResult.ok [CF.Attribute.Unhandled [88]] ⟨[0, 1, 0, 0, 0, 2, 9, 9, 0, 0], 8⟩
      ∧ ((⟨[0, 1, 0, 0, 0, 2, 9, 9, 0, 0], 6⟩ : CF.Stream).advance 2).offset =
          attrStreamX.offset + 6 + 2 := by
  have h := unhandled_attribute_skips_declared_length cpX 1 0 attrStreamX
    ⟨[0, 1, 0, 0, 0, 2, 9, 9, 0, 0], 2⟩ ⟨[0, 1, 0, 0, 0, 2, 9, 9, 0, 0], 6⟩
    1 2 [88] rfl rfl rfl (by decide) (by decide) (by decide)
  exact ⟨by rw [h.1]; rfl, h.2.2⟩

/-- C7: for every successfully parsed constant pool with declared count `N`,
exactly `N − 1` physical entries are stored, in parse order: the 1-based
lookup slot `i − 1` holds the entry parsed after exactly `i − 1` earlier
entries (the i-th entry read from the stream).  Every lookup dereferences
physical slot `index − 1`, and no lookup — `resolve_name` here, or
`get`/`utf8`/`integer`/`name_and_type`/`class`/`field`/`method` of the
runtime pool — ever successfully dereferences index 0 (all panic on it). -/
theorem constant_pool_one_based_indexing :
    (∀ (count : Nat) (s : CF.Stream) (pool : CF.ConstantPool) (s' : CF.Stream),
       CF.ConstantPool.parse count s = CF.PResult.ok pool s' →
       pool.items.length = count - 1)
    ∧ (∀ (count : Nat) (s : CF.Stream) (pool : CF.ConstantPool) (s' : CF.Stream) (i : Nat),
       CF.ConstantPool.parse count s = CF.PResult.ok pool s' →
       1 ≤ i → i ≤ count - 1 →
       ∃ xs s1 ys, CF.parseEntries (i - 1) s = CF.PResult.ok xs s1
         ∧ CF.parseEntries (count - i) s1 = CF.PResult.ok ys s'
         ∧ pool.items = xs ++ ys ∧ xs.length = i - 1
         ∧ pool.items.get? (i - 1) = ys.head?)
    ∧ (∀ (p : CF.ConstantPool) (i : Nat) (bs : List Nat),
       p.resolveName i = CF.POption.some bs →
       1 ≤ i ∧ p.items.get? (i - 1) = Option.some (CF.Constant.Utf8 bs))
    ∧ (∀ (p : RT.ConstantPool) (i : Nat) (c : RT.Constant),
       p.get i = RT.Lookup.found c →
       1 ≤ i ∧ p.items.get? (i - 1) = Option.some c)
    ∧ (∀ p : CF.ConstantPool, p.resolveName 0 = CF.POption.panic)
    ∧ (∀ p : RT.ConstantPool,
        p.get 0 = RT.Lookup.panic ∧ p.utf8 0 = RT.Lookup.panic
        ∧ p.integer 0 = RT.Lookup.panic ∧ p.nameAndType 0 = RT.Lookup.panic
        ∧ p.classAt 0 = RT.Lookup.panic ∧ p.field 0 = RT.Lookup.panic
        ∧ p.method 0 = RT.Lookup.panic) := by
  have hparse : ∀ (count : Nat) (s : CF.Stream) (pool : CF.ConstantPool) (s' : CF.Stream),
      CF.ConstantPool.parse count s = CF.PResult.ok pool s' →
      count ≠ 0 ∧ CF.parseEntries (count - 1) s = CF.PResult.ok pool.items s' := by
    intro count s pool s' h
    unfold CF.ConstantPool.parse at h
    split at h
    · cases h
    · rename_i hcz
      refine ⟨hcz, ?_⟩
      cases heq : CF.parseEntries (count - 1) s with
      | ok cs s3 =>
        rw [heq] at h
        cases h
        exact rfl
      | err e s3 => rw [heq] at h; cases h
      | panic => rw [heq] at h; cases h
  refine ⟨?_, ?_, ?_, ?_, ?_, ?_⟩
  · intro count s pool s' h
    have := (hparse count s pool s' h).2
    have hcz := (hparse count s pool s' h).1
    have hlen := parseEntries_length_of_ok this
    exact hlen
  · intro count s pool s' i h h1 h2
    obtain ⟨hcz, hpe⟩ := hparse count s pool s' h
    have hrw : count - 1 = (i - 1) + (count - i) := by omega
    rw [hrw] at hpe
    obtain ⟨xs, s1, ys, hm, hk, hcat, hlen⟩ := parseEntries_split hpe
    refine ⟨xs, s1, ys, hm, hk, hcat, hlen, ?_⟩
    rw [hcat, ← hlen]
    rw [List.get?_eq_getElem?, List.getElem?_append_right (Nat.le_refl _)]
    cases ys <;> simp
  · intro p i bs h
    unfold CF.ConstantPool.resolveName at h
    split at h
    · cases h
    · rename_i hiz
      refine ⟨by omega, ?_⟩
      cases hg : p.items.get? (i - 1) with
      | none => rw [hg] at h; cases h
      | some c =>
        rw [hg] at h
        cases c with
        | Utf8 bs' => cases h; exact rfl
        | Cls _ => cases h
        | FieldRef _ _ => cases h
        | MethodRef _ _ => cases h
        | Str _ => cases h
        | NameAndType _ _ => cases h
  · intro p i c h
    unfold RT.ConstantPool.get at h
    split at h
    · cases h
    · rename_i hiz
      refine ⟨by omega, ?_⟩
      cases hg : p.items.get? (i - 1) with
      | none => rw [hg] at h; cases h
      | some c' => rw [hg] at h; cases h; exact rfl
  · intro p
    rfl
  · intro p
    exact ⟨rfl, rfl, rfl, rfl, rfl, rfl, rfl⟩

/-- C7 (witness): the length clause applied to the two-entry pool parsed from
`cpStream7` with declared count 3. -/
theorem constant_pool_one_based_indexing_witness :
    cpool7.items.length = 3 - 1 :=
  constant_pool_one_based_indexing.1 3 cpStream7 cpool7 ⟨[7, 0, 2, 1, 0, 1, 65], 7⟩
    (by decide)

/-- C3 (counterexample): the code bytes `10 05 36 01` decode to `bipush 5` at
byte offset 0 and `istore 1` at byte offset 2, but after the frame executes
the first instruction its pc is 1, not 2: the fetch index of the second
instruction is its position in the decoded sequence, not its byte offset —
and position 2 of the decoded sequence does not even exist. -/
theorem pc_byte_offset_counterexample :
    RT.decodeAll [0x10, 5, 0x36, 1] 0 =
        Option.some [(0, RT.Instruction.Bipush 5), (2, RT.Instruction.Istore 1)]
      ∧ RT.frameStep frameBI =
          RT.FrameStepRes.next
            { frameBI with pc := 1, operand_stack := [RT.OperandItem.Integer 5] }
      ∧ (1 : Nat) ≠ 2
      ∧ [RT.Instruction.Bipush 5, RT.Instruction.Istore 1].get? 1 =
          Option.some (RT.Instruction.Istore 1)
      ∧ [RT.Instruction.Bipush 5, RT.Instruction.Istore 1].get? 2 = Option.none :=
  ⟨rfl, rfl, by decide, rfl, rfl⟩

/-- C3 (amended): the decoded instruction sequence is compact and the frame
addresses it by instruction index: whenever one iteration of
`Frame::execute`'s loop continues, the new pc is exactly the old pc plus one
— independent of the fetched instruction's encoded byte width — and the
constant pool and method are untouched, so byte-offset branch targets would
not resolve directly against this addressing. -/
theorem pc_advances_by_instruction_index :
    ∀ (f f' : RT.Frame),
      RT.frameStep f = RT.FrameStepRes.next f' →
      f'.pc = f.pc + 1 ∧ f'.constant_pool = f.constant_pool ∧ f'.method = f.method := by
  intro f f' h
  unfold RT.frameStep at h
  cases hc : f.method.codeOf with
  | none =>
    simp only [hc] at h
    cases h
  | some code =>
    simp only [hc] at h
    by_cases hlt : f.pc < code.length
    · rw [dif_pos hlt] at h
      cases hstep : RT.execInst f.constant_pool (code.get ⟨f.pc, hlt⟩) f.operand_stack with
      | cont st =>
        rw [hstep] at h
        cases h
        exact ⟨rfl, rfl, rfl⟩
      | err e => rw [hstep] at h; cases h
      | panic => rw [hstep] at h; cases h
    · rw [dif_neg hlt] at h
      cases h

/-- C3 (witness): the amended statement at the concrete frame `frameBI`. -/
theorem pc_advances_by_instruction_index_witness :
    ({ frameBI with pc := 1, operand_stack := [RT.OperandItem.Integer 5] } : RT.Frame).pc
        = frameBI.pc + 1 :=
  (pc_advances_by_instruction_index frameBI
    { frameBI with pc := 1, operand_stack := [RT.OperandItem.Integer 5] } rfl).1

/-- C4 (counterexample): executing a frame whose `istore` pops a non-integer
operand (`Padding` on top of the stack) makes `Frame::execute` panic — the
`panic!("Expected integer, ...")` arm — so no error result is returned. -/
theorem istore_type_mismatch_counterexample :
    RT.Frame.execute frameMismatch = RT.ExecResult.panic
    ∧ RT.errExecOf (RT.Frame.execute frameMismatch) = Option.none := by
  have h : RT.Frame.execute frameMismatch = RT.ExecResult.panic := by
    rw [RT.Frame.execute]
    simp only [show frameMismatch.method.codeOf =
      Option.some [RT.Instruction.Istore 0] from rfl]
    rw [RT.executeLoop]
    rfl
  exact ⟨h, by rw [h]; rfl⟩

/-- C4 (amended): when `istore` pops an operand that is not an integer, the
frame panics (aborts with the "Expected integer" type-mismatch report) instead
of returning an error result; indeed `FrameError` has no type-mismatch variant
at all — its only inhabitant is `StackUnderflow`. -/
theorem istore_type_mismatch_panics :
    (∀ (cp : RT.ConstantPool) (idx : Nat) (v : RT.OperandItem)
       (stack : List RT.OperandItem),
       (∀ z : Int, v ≠ RT.OperandItem.Integer z) →
       RT.execInst cp (RT.Instruction.Istore idx) (v :: stack) = RT.StepRes.panic)
    ∧ (∀ e : RT.FrameError, e = RT.FrameError.StackUnderflow) := by
  constructor
  · intro cp idx v stack hv
    cases v with
    | Integer z => exact absurd rfl (hv z)
    | FloatItem => rfl
    | Long z => rfl
    | DoubleItem => rfl
    | Reference => rfl
    | Padding => rfl
  · intro e
    cases e
    rfl

/-- C4 (witness): the amended statement at the concrete mismatching operand
`Padding`. -/
theorem istore_type_mismatch_panics_witness :
    RT.execInst cpEmpty (RT.Instruction.Istore 0) [RT.OperandItem.Padding] =
      RT.StepRes.panic :=
  istore_type_mismatch_panics.1 cpEmpty 0 RT.OperandItem.Padding []
    (fun z h => by cases h)

/-- C8: if the operand stack is empty when the fetched instruction is an
`istore`, `Frame::execute` returns `Err(StackUnderflow)` — the execution of
the frame stops with that error result, and the missing operand is never
substituted by any default. -/
theorem istore_empty_stack_underflow :
    ∀ (f : RT.Frame) (code : List RT.Instruction) (idx : Nat),
      f.method.codeOf = Option.some code →
      code.get? f.pc = Option.some (RT.Instruction.Istore idx) →
      f.operand_stack = [] →
      RT.Frame.execute f = RT.ExecResult.err RT.FrameError.StackUnderflow := by
  intro f code idx hcode hfetch hstack
  obtain ⟨hlt, hget⟩ := List.get?_eq_some.mp hfetch
  rw [RT.Frame.execute]
  simp only [hcode]
  unfold RT.executeLoop
  rw [dif_pos hlt, hget, hstack]
  rfl

/-- C8 (witness): the theorem applied to the concrete frame `frameEmptyStack`
(empty stack, `istore 0` at pc 0). -/
theorem istore_empty_stack_underflow_witness :
    RT.Frame.execute frameEmptyStack = RT.ExecResult.err RT.FrameError.StackUnderflow :=
  istore_empty_stack_underflow frameEmptyStack [RT.Instruction.Istore 0] 0 rfl rfl rfl

/-- C10: one loop iteration of `Frame::execute` at an `istore` whose popped
operand is an integer maps the frame to exactly `{ pc := pc + 1,
operand_stack := rest }`: one element removed from the stack (its value
discarded), pc advanced, constant pool and method untouched — and the `Frame`
record has no local-variable field, so no local slot can be written. -/
theorem istore_frame_effect :
    ∀ (f : RT.Frame) (code : List RT.Instruction) (idx : Nat) (v : Int)
      (rest : List RT.OperandItem),
      f.method.codeOf = Option.some code →
      code.get? f.pc = Option.some (RT.Instruction.Istore idx) →
      f.operand_stack = RT.OperandItem.Integer v :: rest →
      RT.frameStep f =
        RT.FrameStepRes.next { f with pc := f.pc + 1, operand_stack := rest } := by
  intro f code idx v rest hcode hfetch hstack
  obtain ⟨hlt, hget⟩ := List.get?_eq_some.mp hfetch
  rw [RT.frameStep]
  simp only [hcode]
  rw [dif_pos hlt, hget, hstack]
  rfl

/-- C10 (witness): the theorem applied to the concrete frame `frameIntTop`
(integer 7 on top, `istore 0` at pc 0). -/
theorem istore_frame_effect_witness :
    RT.frameStep frameIntTop =
      RT.FrameStepRes.next { frameIntTop with pc := 1, operand_stack := [] } :=
  istore_frame_effect frameIntTop [RT.Instruction.Istore 0] 0 7 [] rfl rfl rfl
